import Mathlib

/-!
Verification of the Face-Recognition local server (enhanced_server.py,
launcher.py) against its natural-language specification.

The Python code is shallowly embedded: JSON values are an inductive type,
the filesystem is a finite list of (path, content, mtime) entries, and the
request handler `do_POST` / `do_OPTIONS` / `end_headers` logic of
`FaceRecognitionHandler` is a pure state-passing function.  `json.loads`
is modelled by passing the parse outcome (`Except JsonDecodeError JsonValue`)
into the handler, since the handler's behaviour depends only on that outcome.
-/

/-- A JSON value as produced by Python's `json.loads`.  Numbers are modelled
as integers (no claim depends on numeric contents). -/
inductive JsonValue : Type where
  | null : JsonValue
  | bool (b : Bool) : JsonValue
  | num (n : Int) : JsonValue
  | str (s : String) : JsonValue
  | arr (xs : List JsonValue) : JsonValue
  | obj (kvs : List (String × JsonValue)) : JsonValue

/-- Python's `len()` applied to a parsed JSON value: defined for lists,
dicts and strings, raises `TypeError` (here: `none`) for `int`, `bool`,
`NoneType`. -/
def pyLen : JsonValue → Option Nat
  | .arr xs => some xs.length
  | .obj kvs => some kvs.length
  | .str s => some s.length
  | _ => none

/-- The Python type name of a JSON value, as it appears in `TypeError`
messages. -/
def pyTypeName : JsonValue → String
  | .null => "NoneType"
  | .bool _ => "bool"
  | .num _ => "int"
  | .str _ => "str"
  | .arr _ => "list"
  | .obj _ => "dict"

/-- `str(e)` for the `TypeError` raised by `len()` on a non-sized value. -/
def lenErrMsg (v : JsonValue) : String :=
  "object of type '" ++ pyTypeName v ++ "' has no len()"

/-- The data of Python's `json.JSONDecodeError`: a message and the
line/column/character position of the failure. -/
structure JsonDecodeError : Type where
  msg : String
  lineno : Nat
  colno : Nat
  pos : Nat

/-- `str(e)` for a `json.JSONDecodeError e`: CPython formats it as
`"{msg}: line {lineno} column {colno} (char {pos})"`. -/
def strOfDecodeError (e : JsonDecodeError) : String :=
  e.msg ++ ": line " ++ toString e.lineno ++ " column " ++ toString e.colno
    ++ " (char " ++ toString e.pos ++ ")"

/-! ### Timestamps

`time.strftime('%Y%m%d_%H%M%S')` as a function of whole seconds since the
epoch (fixed timezone), using the standard civil-from-days conversion. -/

/-- A natural number printed with at least two digits. -/
def pad2 (n : Nat) : String :=
  if n < 10 then "0" ++ toString n else toString n

/-- A natural number printed with at least four digits. -/
def pad4 (n : Nat) : String :=
  if n < 10 then "000" ++ toString n
  else if n < 100 then "00" ++ toString n
  else if n < 1000 then "0" ++ toString n
  else toString n

/-- Civil date (year, month, day) from a count of days since 1970-01-01. -/
def civilFromDays (z0 : Nat) : Nat × Nat × Nat :=
  let z := z0 + 719468
  let era := z / 146097
  let doe := z % 146097
  let yoe := (doe - doe / 1460 + doe / 36524 - doe / 146096) / 365
  let y := yoe + era * 400
  let doy := doe - (365 * yoe + yoe / 4 - yoe / 100)
  let mp := (5 * doy + 2) / 153
  let d := doy - (153 * mp + 2) / 5 + 1
  let m := if mp < 10 then mp + 3 else mp - 9
  (if m ≤ 2 then y + 1 else y, m, d)

/-- `time.strftime('%Y%m%d_%H%M%S')` of a wall-clock time given in whole
seconds since the epoch.  Second granularity: any two calls within the same
second receive the same `t` and hence return the same string. -/
def fmtTs (t : Nat) : String :=
  let c := civilFromDays (t / 86400)
  let s := t % 86400
  pad4 c.1 ++ pad2 c.2.1 ++ pad2 c.2.2 ++ "_"
    ++ pad2 (s / 3600) ++ pad2 ((s / 60) % 60) ++ pad2 (s % 60)

/-! ### Filesystem model -/

/-- One file on disk: its path, its JSON content and its modification time
(seconds since the epoch, as used by `os.path.getmtime`). -/
structure FsEntry : Type where
  path : String
  content : JsonValue
  mtime : Nat

/-- The filesystem: a finite list of files.  A real directory has pairwise
distinct paths; theorems that need this take it as a hypothesis. -/
abbrev Fs : Type := List FsEntry

/-- A glob pattern of the shape `pre ++ "*" ++ suf`, which is the only shape
the server uses (`Record/BackUP/<prefixpart>_*.json`). -/
structure Pat : Type where
  pre : String
  suf : String

/-- `fnmatch` for a `pre*suf` pattern: the name starts with `pre`, ends with
`suf`, and is long enough that the two occurrences do not overlap. -/
def matchesPat (p : Pat) (s : String) : Bool :=
  p.pre.data.isPrefixOf s.data && p.suf.data.isSuffixOf s.data
    && decide (p.pre.length + p.suf.length ≤ s.length)

/-- `glob.glob(pattern)` over the modelled filesystem: the matching entries,
in directory order. -/
def glob (p : Pat) (fs : Fs) : List FsEntry :=
  fs.filter (fun e => matchesPat p e.path)

/-- `open(path, 'w')` followed by `json.dump(v, f)`: overwrite the file if it
exists (its directory position is kept), otherwise create it; the
modification time becomes `now`. -/
def writeFile (fs : Fs) (p : String) (v : JsonValue) (now : Nat) : Fs :=
  if fs.any (fun e => e.path == p) then
    fs.map (fun e => if e.path == p then ⟨p, v, now⟩ else e)
  else
    fs ++ [⟨p, v, now⟩]

/-- Reading a file: the (first) entry with the given path. -/
def readFile (fs : Fs) (p : String) : Option FsEntry :=
  fs.find? (fun e => e.path == p)

/-- `backup_files.sort(key=os.path.getmtime, reverse=True)`: stable sort by
modification time, newest first. -/
def sortByMtimeDesc (l : List FsEntry) : List FsEntry :=
  l.insertionSort (fun a b => b.mtime ≤ a.mtime)

/-- `cleanup_old_backups` (enhanced_server.py lines 20-33): glob the backup
pattern; if more than `maxFiles` files match, sort them newest-first and
delete every file beyond the first `maxFiles`.  `os.remove` may raise
`OSError`; `rmOk path` tells whether the removal succeeds, and a failed
removal is caught per file and skipped. -/
def cleanup_old_backups (p : Pat) (rmOk : String → Bool) (fs : Fs)
    (maxFiles : Nat := 2) : Fs :=
  let backup_files := glob p fs
  if backup_files.length > maxFiles then
    let files_to_delete := (sortByMtimeDesc backup_files).drop maxFiles
    files_to_delete.foldl
      (fun acc e =>
        if rmOk e.path then acc.filter (fun x => x.path != e.path) else acc)
      fs
  else
    fs

/-! ### HTTP responses -/

/-- The JSON body the handler writes on the success and error paths. -/
structure RespJson : Type where
  status : String
  message : String
  timestamp : Option String

/-- An HTTP response: status code, headers in send order, and the JSON body
(`none` when the handler writes no body; static GET file contents are
abstracted as no JSON body). -/
structure HttpResponse : Type where
  statusCode : Nat
  headers : List (String × String)
  body : Option RespJson

/-- The three CORS headers. -/
def corsHeaders : List (String × String) :=
  [("Access-Control-Allow-Origin", "*"),
   ("Access-Control-Allow-Methods", "GET, POST, OPTIONS"),
   ("Access-Control-Allow-Headers", "Content-Type")]

/-- The overridden `end_headers` (enhanced_server.py lines 272-277,
launcher.py lines 27-32): every response is flushed through this chokepoint,
which appends the three CORS headers after whatever headers the handler sent
explicitly. -/
def endHeaders (explicit : List (String × String)) : List (String × String) :=
  explicit ++ corsHeaders

/-! ### The four save endpoints -/

/-- The four POST endpoints of `FaceRecognitionHandler.do_POST`. -/
inductive SaveEndpoint : Type where
  | records : SaveEndpoint
  | punchIn : SaveEndpoint
  | punchOut : SaveEndpoint
  | currentlyOnline : SaveEndpoint
deriving DecidableEq

/-- The request path of each endpoint. -/
def epPath : SaveEndpoint → String
  | .records => "/save-records"
  | .punchIn => "/save-punch-in"
  | .punchOut => "/save-punch-out"
  | .currentlyOnline => "/save-currently-online"

/-- The target file each endpoint overwrites. -/
def targetPath : SaveEndpoint → String
  | .records => "Record/Local.json"
  | .punchIn => "Record/Punch_in.json"
  | .punchOut => "Record/Punch_out.json"
  | .currentlyOnline => "Record/Currently_online.json"

/-- The fixed leading part of each endpoint's backup filename. -/
def backupPre : SaveEndpoint → String
  | .records => "Record/BackUP/backup_"
  | .punchIn => "Record/BackUP/punch_in_backup_"
  | .punchOut => "Record/BackUP/punch_out_backup_"
  | .currentlyOnline => "Record/BackUP/currently_online_backup_"

/-- The backup filename written for timestamp string `ts`:
`f'Record/BackUP/<pre>{timestamp}.json'`. -/
def backupName (ep : SaveEndpoint) (ts : String) : String :=
  backupPre ep ++ ts ++ ".json"

/-- The glob pattern each endpoint passes to `cleanup_old_backups`,
e.g. `'Record/BackUP/backup_*.json'`. -/
def epPat (ep : SaveEndpoint) : Pat :=
  ⟨backupPre ep, ".json"⟩

/-- The endpoint-specific wording of the success message
(`f'Saved {len(records)} records'`, `f'Saved {n} punch-in records'`, ...). -/
def msgSuffix : SaveEndpoint → String
  | .records => " records"
  | .punchIn => " punch-in records"
  | .punchOut => " punch-out records"
  | .currentlyOnline => " currently online records"

/-- The headers of the handler's success/error responses: it sends
`Content-type` and one explicit CORS origin header, then `end_headers`
appends the three CORS headers. -/
def jsonRespHeaders : List (String × String) :=
  endHeaders [("Content-type", "application/json"),
              ("Access-Control-Allow-Origin", "*")]

/-- The 500 error response (`{'status': 'error', 'message': str(e)}`). -/
def errorResponse (msg : String) : HttpResponse :=
  ⟨500, jsonRespHeaders, some ⟨"error", msg, none⟩⟩

/-- The 200 success response
(`{'status': 'success', 'message': ..., 'timestamp': timestamp}`). -/
def successResponse (msg ts : String) : HttpResponse :=
  ⟨200, jsonRespHeaders, some ⟨"success", msg, some ts⟩⟩

/-- One save branch of `do_POST` (all four branches are identical up to the
constants in the endpoint table).  `parsed` is the outcome of
`json.loads(post_data)` (errors before it — missing `Content-Length`,
undecodable body — land in the same `except` branch carrying the exception's
string).  On success: write the target file, write the timestamped backup,
sweep old backups, then evaluate `len(records)` (which the log line and the
response message need); if `len` raises, the files have already been written
and the `except` branch answers 500. -/
def handleSave (ep : SaveEndpoint) (parsed : Except JsonDecodeError JsonValue)
    (rmOk : String → Bool) (now : Nat) (fs : Fs) : HttpResponse × Fs :=
  match parsed with
  | .error e => (errorResponse (strOfDecodeError e), fs)
  | .ok records =>
    let fs1 := writeFile fs (targetPath ep) records now
    let timestamp := fmtTs now
    let backup_file := backupName ep timestamp
    let fs2 := writeFile fs1 backup_file records now
    let fs3 := cleanup_old_backups (epPat ep) rmOk fs2 2
    match pyLen records with
    | none => (errorResponse (lenErrMsg records), fs3)
    | some n =>
      (successResponse ("Saved " ++ toString n ++ msgSuffix ep) timestamp, fs3)

/-- Path dispatch of `do_POST`: the four `if/elif` branches, else 404 with no
body (`send_response(404); end_headers()`). -/
def handlePost (path : String) (parsed : Except JsonDecodeError JsonValue)
    (rmOk : String → Bool) (now : Nat) (fs : Fs) : HttpResponse × Fs :=
  if path = epPath .records then handleSave .records parsed rmOk now fs
  else if path = epPath .punchIn then handleSave .punchIn parsed rmOk now fs
  else if path = epPath .punchOut then handleSave .punchOut parsed rmOk now fs
  else if path = epPath .currentlyOnline then
    handleSave .currentlyOnline parsed rmOk now fs
  else
    (⟨404, endHeaders [], none⟩, fs)

/-- `do_OPTIONS`: 200, three explicit CORS headers, then `end_headers`
appends the same three again. -/
def handleOptions : HttpResponse :=
  ⟨200, endHeaders corsHeaders, none⟩

/-- GET requests are served by the inherited `SimpleHTTPRequestHandler`
through the overridden `end_headers`: a found file answers 200, a missing
one 404; the file bytes themselves are abstracted away (no JSON body). -/
def handleGet (path : String) (fs : Fs) : HttpResponse :=
  match readFile fs path with
  | some _ => ⟨200, endHeaders [("Content-type", "application/octet-stream")], none⟩
  | none => ⟨404, endHeaders [("Content-type", "text/html")], none⟩

/-- HTTP methods the handler class implements. -/
inductive Method : Type where
  | get : Method
  | post : Method
  | options : Method

/-- Dispatch of one request by method. -/
def handleRequest (m : Method) (path : String)
    (parsed : Except JsonDecodeError JsonValue) (rmOk : String → Bool)
    (now : Nat) (fs : Fs) : HttpResponse × Fs :=
  match m with
  | .get => (handleGet path fs, fs)
  | .post => handlePost path parsed rmOk now fs
  | .options => (handleOptions, fs)

/-! ### Launcher port logic (launcher.py) -/

/-- Outcome of trying to start a server. -/
inductive ServeOutcome : Type where
  | served (port : Nat) : ServeOutcome
  | failed : ServeOutcome
deriving DecidableEq

/-- The loop body of `find_available_port`: try `n` consecutive ports
starting at `port`, returning the first that binds.  `avail` models whether
`socket.bind` succeeds on a port. -/
def scanPorts (avail : Nat → Bool) : Nat → Nat → Option Nat
  | _, 0 => none
  | port, n + 1 => if avail port then some port else scanPorts avail (port + 1) n

/-- `find_available_port(start_port)` (launcher.py lines 63-75): scan the
window `[start_port, start_port + 10)`; `none` models the raised
`Exception("No available ports found ...")`. -/
def find_available_port (avail : Nat → Bool) (start_port : Nat) : Option Nat :=
  scanPorts avail start_port 10

/-- `start_server(port)` (launcher.py lines 84-137): bind and serve; on
"Address already in use" find an available port in the next window and
recurse.  The recursion is fuelled (the source recursion is bounded in the
same way because a found port is available). -/
def start_server (avail : Nat → Bool) : Nat → Nat → ServeOutcome
  | 0, _ => .failed
  | fuel + 1, port =>
    if avail port then .served port
    else
      match find_available_port avail (port + 1) with
      | some new_port => start_server avail fuel new_port
      | none => .failed

/-- `start_enhanced_server(port)` (enhanced_server.py lines 305-358): bind,
wrap with TLS, serve.  A bind conflict ("Address already in use") is caught
and answered with `return False` — there is no port retry; a certificate
load failure also fails. -/
def start_enhanced_server (avail : Nat → Bool) (certOk : Bool)
    (port : Nat) : ServeOutcome :=
  if avail port then
    if certOk then .served port else .failed
  else .failed

/-! ### Auxiliary definitions for the theorems -/

/-- Pairwise-distinct paths: the invariant of a real directory tree. -/
abbrev pathsNodup (fs : Fs) : Prop := fs.Pairwise (fun a b => a.path ≠ b.path)

instance : IsTotal FsEntry (fun a b => b.mtime ≤ a.mtime) :=
  ⟨fun a b => le_total b.mtime a.mtime⟩

instance : IsTrans FsEntry (fun a b => b.mtime ≤ a.mtime) :=
  ⟨fun _ _ _ h1 h2 => le_trans h2 h1⟩

/-- A concrete directory with three backups of the records endpoint and one
unrelated file, used to instantiate the retention theorems. -/
def sampleBackupDir : Fs :=
  [⟨"Record/BackUP/backup_a.json", .null, 10⟩,
   ⟨"Record/Local.json", .arr [], 5⟩,
   ⟨"Record/BackUP/backup_b.json", .bool true, 20⟩,
   ⟨"Record/BackUP/backup_c.json", .num 3, 30⟩]

/-- A second concrete directory, used to instantiate the idempotence
theorem. -/
def sampleBackupDir2 : Fs :=
  [⟨"Record/BackUP/punch_in_backup_x.json", .null, 3⟩,
   ⟨"Record/BackUP/punch_in_backup_y.json", .null, 9⟩,
   ⟨"Record/BackUP/punch_in_backup_z.json", .null, 6⟩,
   ⟨"Record/Punch_in.json", .arr [], 9⟩]

/-! ### Helper lemmas: glob patterns -/

/-- A string of the form `pre ++ mid ++ suf` matches the `pre*suf` pattern. -/
theorem matchesPat_affix (a b mid : String) :
    matchesPat ⟨a, b⟩ (a ++ mid ++ b) = true := by
  have hdata : (a ++ mid ++ b).data = a.data ++ (mid.data ++ b.data) := by
    simp [String.data_append, List.append_assoc]
  simp only [matchesPat, Bool.and_eq_true, decide_eq_true_eq]
  refine ⟨⟨?_, ?_⟩, ?_⟩
  · rw [ List.isPrefixOf_iff_prefix, hdata]
    exact List.prefix_append _ _
  · rw [ List.isSuffixOf_iff_suffix, hdata, ← List.append_assoc]
    exact List.suffix_append _ _
  · simp [String.length_append]

/-- Every backup filename matches its endpoint's glob pattern. -/
theorem matchesPat_backupName (ep : SaveEndpoint) (ts : String) :
    matchesPat (epPat ep) (backupName ep ts) = true :=
  matchesPat_affix (backupPre ep) ".json" ts

/-- No endpoint's target file matches its backup glob pattern. -/
theorem matchesPat_targetPath (ep : SaveEndpoint) :
    matchesPat (epPat ep) (targetPath ep) = false := by
  cases ep <;> decide

/-- The target file and a backup file are distinct paths. -/
theorem targetPath_ne_backupName (ep : SaveEndpoint) (ts : String) :
    targetPath ep ≠ backupName ep ts := by
  intro h
  have h1 := matchesPat_backupName ep ts
  rw [← h, matchesPat_targetPath ep] at h1
  exact Bool.false_ne_true h1

/-! ### Helper lemmas: writeFile / readFile -/

/-- The update function of `writeFile` preserves paths. -/
theorem writeUpdate_path (p : String) (v : JsonValue) (t : Nat) (e : FsEntry) :
    (if e.path == p then (⟨p, v, t⟩ : FsEntry) else e).path = e.path := by
  by_cases he : e.path = p <;> simp [he]

/-- Reading back a freshly written file. -/
theorem readFile_writeFile_self (fs : Fs) (p : String) (v : JsonValue) (t : Nat) :
    readFile (writeFile fs p v t) p = some ⟨p, v, t⟩ := by
  unfold writeFile readFile
  by_cases hany : fs.any (fun e => e.path == p) = true
  · rw [if_pos hany, List.find?_map]
    have hcomp : ((fun e : FsEntry => e.path == p) ∘
        fun e => if e.path == p then (⟨p, v, t⟩ : FsEntry) else e)
        = fun e : FsEntry => e.path == p := by
      funext e
      by_cases he : e.path = p <;> simp [Function.comp, he]
    rw [hcomp]
    obtain ⟨e, hmem, hpe⟩ := List.any_eq_true.mp hany
    cases hf : List.find? (fun e : FsEntry => e.path == p) fs with
    | none =>
      rw [List.find?_eq_none] at hf
      exact absurd hpe (hf e hmem)
    | some e1 =>
      have hp1 := List.find?_some hf
      simp only [beq_iff_eq] at hp1
      simp [hp1]
  · rw [if_neg hany, List.find?_append]
    have hnone : List.find? (fun e : FsEntry => e.path == p) fs = none := by
      rw [List.find?_eq_none]
      intro x hx hpx
      exact hany (List.any_eq_true.mpr ⟨x, hx, hpx⟩)
    simp [hnone, List.find?_cons]

/-- Writing one file leaves reads of any other path unchanged. -/
theorem readFile_writeFile_ne (fs : Fs) (p q : String) (v : JsonValue) (t : Nat)
    (h : q ≠ p) : readFile (writeFile fs p v t) q = readFile fs q := by
  unfold writeFile readFile
  by_cases hany : fs.any (fun e => e.path == p) = true
  · rw [if_pos hany, List.find?_map]
    have hcomp : ((fun e : FsEntry => e.path == q) ∘
        fun e => if e.path == p then (⟨p, v, t⟩ : FsEntry) else e)
        = fun e : FsEntry => e.path == q := by
      funext e
      by_cases he : e.path = p
      · have h1 : (p == q) = false := by
          simp only [beq_eq_false_iff_ne, ne_eq]
          exact fun hh => h hh.symm
        have h2 : (e.path == q) = false := by
          simp only [beq_eq_false_iff_ne, ne_eq, he]
          exact fun hh => h hh.symm
        simp [Function.comp, he, h1, h2]
      · simp [Function.comp, he]
    rw [hcomp]
    cases hf : List.find? (fun e : FsEntry => e.path == q) fs with
    | none => rfl
    | some e1 =>
      have hp1 := List.find?_some hf
      simp only [beq_iff_eq] at hp1
      have hne : (e1.path == p) = false := by
        simp only [beq_eq_false_iff_ne, ne_eq, hp1]
        exact h
      simp [hne]
      exact fun hh => absurd (hp1.symm.trans hh) h
  · rw [if_neg hany, List.find?_append]
    have hpq : (p == q) = false := by
      simp only [beq_eq_false_iff_ne, ne_eq]
      exact fun hh => h hh.symm
    simp [List.find?_cons, hpq]

/-! ### Helper lemmas: glob and writeFile -/

/-- Writing a file whose path does not match the pattern leaves the glob
result unchanged. -/
theorem glob_writeFile_not_match (pat : Pat) (fs : Fs) (p : String)
    (v : JsonValue) (t : Nat) (h : matchesPat pat p = false) :
    glob pat (writeFile fs p v t) = glob pat fs := by
  unfold writeFile glob
  by_cases hany : fs.any (fun e => e.path == p) = true
  · rw [if_pos hany, List.filter_map]
    have hcomp : ((fun e : FsEntry => matchesPat pat e.path) ∘
        fun e => if e.path == p then (⟨p, v, t⟩ : FsEntry) else e)
        = fun e : FsEntry => matchesPat pat e.path := by
      funext e
      by_cases he : e.path = p <;> simp [Function.comp, he]
    rw [hcomp]
    have hid : ∀ e ∈ List.filter (fun e : FsEntry => matchesPat pat e.path) fs,
        (if e.path == p then (⟨p, v, t⟩ : FsEntry) else e) = e := by
      intro e he
      have hm := (List.mem_filter.mp he).2
      have hne : e.path ≠ p := by
        intro hh
        rw [hh, h] at hm
        exact Bool.false_ne_true hm
      simp [hne]
    rw [List.map_congr_left hid]
    simp
  · rw [if_neg hany, List.filter_append]
    simp [h]

/-- Writing a matching file into a filesystem with no matching files makes it
the only glob result. -/
theorem glob_writeFile_new (pat : Pat) (fs : Fs) (p : String) (v : JsonValue)
    (t : Nat) (hm : matchesPat pat p = true) (h0 : glob pat fs = []) :
    glob pat (writeFile fs p v t) = [⟨p, v, t⟩] := by
  unfold glob at h0
  have hany : fs.any (fun e => e.path == p) = false := by
    by_contra hc
    rw [Bool.not_eq_false, List.any_eq_true] at hc
    obtain ⟨e, hmem, hpe⟩ := hc
    have hep : e.path = p := by simpa using hpe
    have : e ∈ List.filter (fun e : FsEntry => matchesPat pat e.path) fs :=
      List.mem_filter.mpr ⟨hmem, by rw [hep]; exact hm⟩
    rw [h0] at this
    exact absurd this (List.not_mem_nil e)
  unfold writeFile glob
  rw [if_neg (by simp [hany]), List.filter_append, h0]
  simp [hm]

/-- Overwriting the unique matching file keeps it the only glob result, with
the new content and modification time. -/
theorem glob_writeFile_update (pat : Pat) (fs : Fs) (p : String)
    (v : JsonValue) (t : Nat) (e0 : FsEntry) (h1 : glob pat fs = [e0])
    (he : e0.path = p) : glob pat (writeFile fs p v t) = [⟨p, v, t⟩] := by
  have he0 : e0 ∈ glob pat fs := by rw [h1]; exact List.mem_cons_self e0 []
  have he0fs : e0 ∈ fs := (List.mem_filter.mp he0).1
  have hm : matchesPat pat p = true := by
    have := (List.mem_filter.mp he0).2
    rwa [he] at this
  have hany : fs.any (fun e => e.path == p) = true :=
    List.any_eq_true.mpr ⟨e0, he0fs, by simp [he]⟩
  unfold glob at h1
  unfold writeFile glob
  rw [if_pos hany, List.filter_map]
  have hcomp : ((fun e : FsEntry => matchesPat pat e.path) ∘
      fun e => if e.path == p then (⟨p, v, t⟩ : FsEntry) else e)
      = fun e : FsEntry => matchesPat pat e.path := by
    funext e
    by_cases hep : e.path = p <;> simp [Function.comp, hep]
  rw [hcomp, h1]
  simp [he]

/-! ### Helper lemmas: cleanup_old_backups -/

/-- With at most `maxFiles` matching files the sweep is a no-op. -/
theorem cleanup_nop (pat : Pat) (rmOk : String → Bool) (fs : Fs) (n : Nat)
    (h : (glob pat fs).length ≤ n) :
    cleanup_old_backups pat rmOk fs n = fs := by
  unfold cleanup_old_backups
  rw [if_neg (by omega)]

/-- The deletion loop of the sweep, as a filter over the filesystem. -/
theorem foldl_remove_eq_filter (rmOk : String → Bool) (toDel : List FsEntry)
    (fs : Fs) :
    toDel.foldl (fun acc e =>
        if rmOk e.path then acc.filter (fun x => x.path != e.path) else acc) fs
      = fs.filter
          (fun x => !(toDel.any (fun d => rmOk d.path && x.path == d.path))) := by
  induction toDel generalizing fs with
  | nil => simp
  | cons d ds ih =>
    rw [List.foldl_cons]
    by_cases hr : rmOk d.path = true
    · rw [if_pos hr, ih, List.filter_filter]
      apply List.filter_congr
      intro x _
      cases hx : x.path == d.path <;>
        cases hds : ds.any (fun dd => rmOk dd.path && x.path == dd.path) <;>
          simp [hr, hx, hds, bne]
    · rw [if_neg hr, ih]
      apply List.filter_congr
      intro x _
      have hr0 : rmOk d.path = false := by
        rwa [Bool.not_eq_true] at hr
      simp [hr0]

/-- The sweep in closed form when more than `n` files match. -/
theorem cleanup_eq_filter (pat : Pat) (rmOk : String → Bool) (fs : Fs) (n : Nat)
    (h : (glob pat fs).length > n) :
    cleanup_old_backups pat rmOk fs n
      = fs.filter (fun x => !(((sortByMtimeDesc (glob pat fs)).drop n).any
          (fun d => rmOk d.path && x.path == d.path))) := by
  unfold cleanup_old_backups
  rw [if_pos h]
  exact foldl_remove_eq_filter rmOk _ fs

/-- Every file slated for deletion matches the glob pattern. -/
theorem mem_toDelete_matches (pat : Pat) (fs : Fs) (n : Nat) (d : FsEntry)
    (hd : d ∈ (sortByMtimeDesc (glob pat fs)).drop n) :
    matchesPat pat d.path = true := by
  have h1 : d ∈ sortByMtimeDesc (glob pat fs) :=
    List.Sublist.mem hd (List.drop_sublist n _)
  have h2 : d ∈ glob pat fs :=
    (List.perm_insertionSort (fun a b : FsEntry => b.mtime ≤ a.mtime) _).mem_iff.mp h1
  exact (List.mem_filter.mp h2).2

/-- A `find?` over a filter that keeps everything the search predicate could
select equals the `find?` over the unfiltered list. -/
theorem find?_filter_keep {α : Type} (px keep : α → Bool) (l : List α)
    (h : ∀ x, px x = true → keep x = true) :
    (l.filter keep).find? px = l.find? px := by
  induction l with
  | nil => rfl
  | cons e rest ih =>
    rw [List.filter_cons]
    by_cases hpe : px e = true
    · rw [if_pos (by rw [h e hpe])]
      simp [List.find?_cons, hpe, ih]
    · have hpe0 : px e = false := by rwa [Bool.not_eq_true] at hpe
      by_cases hke : keep e = true
      · rw [if_pos (by rw [hke])]
        simp [List.find?_cons, hpe0, ih]
      · rw [if_neg (by simp [Bool.not_eq_true] at hke; simp [hke])]
        rw [ih]
        simp [List.find?_cons, hpe0]

/-- The sweep never touches a file whose path does not match the pattern. -/
theorem readFile_cleanup_not_match (pat : Pat) (rmOk : String → Bool) (fs : Fs)
    (n : Nat) (q : String) (h : matchesPat pat q = false) :
    readFile (cleanup_old_backups pat rmOk fs n) q = readFile fs q := by
  by_cases hlen : (glob pat fs).length > n
  · rw [cleanup_eq_filter pat rmOk fs n hlen]
    unfold readFile
    apply find?_filter_keep
    intro x hx
    have hxq : x.path = q := by simpa using hx
    cases hany2 : ((sortByMtimeDesc (glob pat fs)).drop n).any
        (fun d => rmOk d.path && x.path == d.path) with
    | false => simp
    | true =>
      exfalso
      obtain ⟨d, hdmem, hdp⟩ := List.any_eq_true.mp hany2
      have hdm := mem_toDelete_matches pat fs n d hdmem
      simp only [Bool.and_eq_true, beq_iff_eq] at hdp
      rw [← hdp.2, hxq, h] at hdm
      exact Bool.false_ne_true hdm
  · rw [cleanup_nop pat rmOk fs n (by omega)]

/-! ### Helper lemmas: sorting and retention -/

/-- The sort is a permutation of its input. -/
theorem sortByMtimeDesc_perm (l : List FsEntry) : (sortByMtimeDesc l).Perm l :=
  List.perm_insertionSort _ l

/-- The sort yields pairwise descending modification times. -/
theorem sortByMtimeDesc_sorted (l : List FsEntry) :
    (sortByMtimeDesc l).Pairwise (fun a b => b.mtime ≤ a.mtime) :=
  List.sorted_insertionSort _ l

/-- Matching files have pairwise-distinct paths, also after sorting. -/
theorem sorted_glob_pathsNodup (pat : Pat) (fs : Fs) (hnd : pathsNodup fs) :
    (sortByMtimeDesc (glob pat fs)).Pairwise (fun a b => a.path ≠ b.path) := by
  have h1 : (glob pat fs).Pairwise (fun a b => a.path ≠ b.path) :=
    List.Pairwise.filter _ hnd
  exact ((sortByMtimeDesc_perm (glob pat fs)).pairwise_iff
    (fun h => h.symm)).mpr h1

/-- Filtering away everything whose path occurs in `D` erases `D` and keeps
a path-disjoint `T` intact. -/
theorem filter_not_hit (T D : List FsEntry)
    (hcross : ∀ a ∈ T, ∀ b ∈ D, a.path ≠ b.path) :
    (T ++ D).filter (fun x => !(D.any (fun d => x.path == d.path))) = T := by
  rw [List.filter_append]
  have h1 : T.filter (fun x => !(D.any (fun d => x.path == d.path))) = T := by
    rw [List.filter_eq_self]
    intro e hev
    rw [Bool.not_eq_true']
    by_contra hc
    rw [Bool.not_eq_false] at hc
    obtain ⟨dd, hdd, hp⟩ := List.any_eq_true.mp hc
    exact hcross e hev dd hdd (by simpa using hp)
  have h2 : D.filter (fun x => !(D.any (fun d => x.path == d.path))) = [] := by
    rw [List.filter_eq_nil_iff]
    intro d hd hc
    have hin : D.any (fun dd => d.path == dd.path) = true :=
      List.any_eq_true.mpr ⟨d, hd, by simp⟩
    rw [hin] at hc
    simp at hc
  rw [h1, h2, List.append_nil]

/-- After a sweep in which every deletion succeeds, the matching files are
exactly the `maxFiles` newest (as a permutation of the sorted head). -/
theorem glob_cleanup_all_ok (pat : Pat) (fs : Fs) (hnd : pathsNodup fs)
    (hlen : (glob pat fs).length > 2) :
    (glob pat (cleanup_old_backups pat (fun _ => true) fs 2)).Perm
      ((sortByMtimeDesc (glob pat fs)).take 2) := by
  have hclean : glob pat (cleanup_old_backups pat (fun _ => true) fs 2)
      = (glob pat fs).filter (fun x =>
          !(((sortByMtimeDesc (glob pat fs)).drop 2).any
            (fun d => x.path == d.path))) := by
    rw [cleanup_eq_filter pat (fun _ => true) fs 2 hlen]
    simp only [glob]
    rw [List.filter_filter, List.filter_filter]
    apply List.filter_congr
    intro x _
    cases hm : matchesPat pat x.path <;>
      cases ha : ((sortByMtimeDesc
          (List.filter (fun e => matchesPat pat e.path) fs)).drop 2).any
          (fun d => x.path == d.path) <;>
        simp [hm, ha]
  rw [hclean]
  have hperm := List.Perm.filter (fun x =>
      !(((sortByMtimeDesc (glob pat fs)).drop 2).any
        (fun d => x.path == d.path)))
    (sortByMtimeDesc_perm (glob pat fs)).symm
  have hpw : (sortByMtimeDesc (glob pat fs)).Pairwise
      (fun a b => a.path ≠ b.path) := sorted_glob_pathsNodup pat fs hnd
  have hcross : ∀ a ∈ (sortByMtimeDesc (glob pat fs)).take 2,
      ∀ b ∈ (sortByMtimeDesc (glob pat fs)).drop 2, a.path ≠ b.path := by
    have h1 := (List.take_append_drop 2 (sortByMtimeDesc (glob pat fs))).symm ▸ hpw
    exact (List.pairwise_append.mp h1).2.2
  have hsplit := congrArg
    (List.filter (fun x =>
      !(((sortByMtimeDesc (glob pat fs)).drop 2).any
        (fun d => x.path == d.path))))
    (List.take_append_drop 2 (sortByMtimeDesc (glob pat fs))).symm
  have hfinal := hsplit.trans (filter_not_hit _ _ hcross)
  rw [← hfinal]
  exact hperm

/-! ### Claim C4: backup retention sweep -/

/-- C4: one run of the Backup Retention Sweeper with max 2 deletes exactly
the files beyond the 2 most-recently-modified — with all deletions
succeeding, exactly `min count 2` matching files remain and every remaining
file is at least as new as every removed one; when 2 or fewer files match it
deletes nothing (for any deletion behaviour); and a failure to delete one
file is caught per-file: every other file slated for deletion whose removal
succeeds is still removed. -/
theorem c4_cleanup_retention (pat : Pat) (fs : Fs) (hnd : pathsNodup fs) :
    ((glob pat fs).length ≤ 2 →
      ∀ rmOk : String → Bool, cleanup_old_backups pat rmOk fs 2 = fs)
    ∧ (glob pat (cleanup_old_backups pat (fun _ => true) fs 2)).length
        = min (glob pat fs).length 2
    ∧ (∀ e ∈ glob pat (cleanup_old_backups pat (fun _ => true) fs 2),
        ∀ d ∈ glob pat fs,
          d ∉ glob pat (cleanup_old_backups pat (fun _ => true) fs 2) →
            d.mtime ≤ e.mtime)
    ∧ (∀ rmOk : String → Bool, ∀ d ∈ (sortByMtimeDesc (glob pat fs)).drop 2,
        rmOk d.path = true → d ∉ cleanup_old_backups pat rmOk fs 2) := by
  refine ⟨fun h rmOk => cleanup_nop pat rmOk fs 2 h, ?_, ?_, ?_⟩
  · by_cases hlen : (glob pat fs).length > 2
    · have hperm := glob_cleanup_all_ok pat fs hnd hlen
      rw [hperm.length_eq, List.length_take,
        (sortByMtimeDesc_perm (glob pat fs)).length_eq]
      omega
    · rw [cleanup_nop pat (fun _ => true) fs 2 (by omega)]
      omega
  · intro e he d hd hdn
    by_cases hlen : (glob pat fs).length > 2
    · have hperm := glob_cleanup_all_ok pat fs hnd hlen
      have he2 : e ∈ (sortByMtimeDesc (glob pat fs)).take 2 :=
        hperm.mem_iff.mp he
      have hd2 : d ∈ sortByMtimeDesc (glob pat fs) :=
        (sortByMtimeDesc_perm (glob pat fs)).mem_iff.mpr hd
      rw [← List.take_append_drop 2 (sortByMtimeDesc (glob pat fs)),
        List.mem_append] at hd2
      cases hd2 with
      | inl hdt => exact absurd (hperm.mem_iff.mpr hdt) hdn
      | inr hdd =>
        have hsorted := sortByMtimeDesc_sorted (glob pat fs)
        rw [← List.take_append_drop 2 (sortByMtimeDesc (glob pat fs))] at hsorted
        exact (List.pairwise_append.mp hsorted).2.2 e he2 d hdd
    · rw [cleanup_nop pat (fun _ => true) fs 2 (by omega)] at hdn
      exact absurd hd hdn
  · intro rmOk d hd hr hmem
    have hlen : (glob pat fs).length > 2 := by
      have hne : (sortByMtimeDesc (glob pat fs)).drop 2 ≠ [] :=
        List.ne_nil_of_mem hd
      have h2 : ¬((sortByMtimeDesc (glob pat fs)).length ≤ 2) := by
        intro hle
        exact hne (List.drop_eq_nil_of_le hle)
      rw [(sortByMtimeDesc_perm (glob pat fs)).length_eq] at h2
      omega
    rw [cleanup_eq_filter pat rmOk fs 2 hlen] at hmem
    have hkeep := (List.mem_filter.mp hmem).2
    have hany : ((sortByMtimeDesc (glob pat fs)).drop 2).any
        (fun dd => rmOk dd.path && d.path == dd.path) = true :=
      List.any_eq_true.mpr ⟨d, hd, by simp [hr]⟩
    rw [hany] at hkeep
    simp at hkeep

/-- C4 witness: the retention theorem instantiated on a concrete directory
with three matching backups. -/
theorem c4_cleanup_retention_witness :
    (glob (epPat SaveEndpoint.records)
      (cleanup_old_backups (epPat SaveEndpoint.records)
        (fun _ => true) sampleBackupDir 2)).length
      = min (glob (epPat SaveEndpoint.records) sampleBackupDir).length 2 :=
  (c4_cleanup_retention (epPat SaveEndpoint.records) sampleBackupDir
    (by decide)).2.1

/-! ### Claim C6: the sweep is idempotent -/

/-- C6: re-running the sweep immediately changes nothing — the second run
deletes nothing and the file set after two runs equals the file set after
one. -/
theorem c6_cleanup_idempotent (pat : Pat) (fs : Fs) (hnd : pathsNodup fs) :
    cleanup_old_backups pat (fun _ => true)
      (cleanup_old_backups pat (fun _ => true) fs 2) 2
      = cleanup_old_backups pat (fun _ => true) fs 2 := by
  by_cases hlen : (glob pat fs).length > 2
  · apply cleanup_nop
    have hperm := glob_cleanup_all_ok pat fs hnd hlen
    rw [hperm.length_eq, List.length_take]
    omega
  · have h1 : cleanup_old_backups pat (fun _ => true) fs 2 = fs :=
      cleanup_nop pat (fun _ => true) fs 2 (by omega)
    rw [h1]
    exact cleanup_nop pat (fun _ => true) fs 2 (by omega)

/-- C6 witness: idempotence of the sweep on a concrete directory with three
matching backups. -/
theorem c6_cleanup_idempotent_witness :
    cleanup_old_backups (epPat SaveEndpoint.punchIn) (fun _ => true)
      (cleanup_old_backups (epPat SaveEndpoint.punchIn)
        (fun _ => true) sampleBackupDir2 2) 2
      = cleanup_old_backups (epPat SaveEndpoint.punchIn)
          (fun _ => true) sampleBackupDir2 2 :=
  c6_cleanup_idempotent (epPat SaveEndpoint.punchIn) sampleBackupDir2
    (by decide)

/-! ### Helper lemmas: the POST handler -/

/-- The `do_POST` dispatch routes each endpoint's path to its save branch. -/
theorem handlePost_epPath (ep : SaveEndpoint)
    (parsed : Except JsonDecodeError JsonValue) (rmOk : String → Bool)
    (now : Nat) (fs : Fs) :
    handlePost (epPath ep) parsed rmOk now fs
      = handleSave ep parsed rmOk now fs := by
  cases ep <;> rfl

/-- A parse failure reaches the `except` branch before any file write. -/
theorem handleSave_error (ep : SaveEndpoint) (e : JsonDecodeError)
    (rmOk : String → Bool) (now : Nat) (fs : Fs) :
    handleSave ep (.error e) rmOk now fs
      = (errorResponse (strOfDecodeError e), fs) := rfl

/-- On a parsed body without `len()`, the handler still writes both files and
sweeps, then answers 500 from the `except` branch. -/
theorem handleSave_ok_none (ep : SaveEndpoint) (B : JsonValue)
    (rmOk : String → Bool) (now : Nat) (fs : Fs) (h : pyLen B = none) :
    handleSave ep (.ok B) rmOk now fs
      = (errorResponse (lenErrMsg B),
         cleanup_old_backups (epPat ep) rmOk
           (writeFile (writeFile fs (targetPath ep) B now)
             (backupName ep (fmtTs now)) B now) 2) := by
  simp only [handleSave, h]

/-- On a parsed body with `len()` defined, the handler writes both files,
sweeps, and answers 200. -/
theorem handleSave_ok_some (ep : SaveEndpoint) (B : JsonValue) (n : Nat)
    (rmOk : String → Bool) (now : Nat) (fs : Fs) (h : pyLen B = some n) :
    handleSave ep (.ok B) rmOk now fs
      = (successResponse ("Saved " ++ toString n ++ msgSuffix ep) (fmtTs now),
         cleanup_old_backups (epPat ep) rmOk
           (writeFile (writeFile fs (targetPath ep) B now)
             (backupName ep (fmtTs now)) B now) 2) := by
  simp only [handleSave, h]

/-- A stringified `json.JSONDecodeError` is never the empty string. -/
theorem strOfDecodeError_ne_empty (e : JsonDecodeError) :
    strOfDecodeError e ≠ "" := by
  intro h
  have h2 := congrArg String.length h
  simp only [strOfDecodeError, String.length_append] at h2
  have l1 : ": line ".length = 7 := rfl
  have l2 : "".length = 0 := rfl
  omega

/-- A stringified `len()` `TypeError` is never the empty string. -/
theorem lenErrMsg_ne_empty (v : JsonValue) : lenErrMsg v ≠ "" := by
  cases v <;> simp only [lenErrMsg, pyTypeName] <;> decide

/-- Every save-branch response carries the JSON response headers. -/
theorem handleSave_headers (ep : SaveEndpoint)
    (parsed : Except JsonDecodeError JsonValue) (rmOk : String → Bool)
    (now : Nat) (fs : Fs) :
    (handleSave ep parsed rmOk now fs).1.headers = jsonRespHeaders := by
  cases parsed with
  | error e => rfl
  | ok B =>
    cases hv : pyLen B with
    | none =>
      rw [handleSave_ok_none ep B rmOk now fs hv]
      rfl
    | some n =>
      rw [handleSave_ok_some ep B n rmOk now fs hv]
      rfl

/-- Every response the handler class produces is flushed through the
overridden `end_headers`: its header list is some explicit list followed by
the three CORS headers. -/
theorem handleRequest_headers (m : Method) (path : String)
    (parsed : Except JsonDecodeError JsonValue) (rmOk : String → Bool)
    (now : Nat) (fs : Fs) :
    ∃ ex, (handleRequest m path parsed rmOk now fs).1.headers
      = endHeaders ex := by
  cases m with
  | get =>
    unfold handleRequest handleGet
    cases readFile fs path <;> exact ⟨_, rfl⟩
  | options => exact ⟨corsHeaders, rfl⟩
  | post =>
    unfold handleRequest handlePost
    by_cases h1 : path = epPath .records
    · rw [if_pos h1, handleSave_headers]; exact ⟨_, rfl⟩
    rw [if_neg h1]
    by_cases h2 : path = epPath .punchIn
    · rw [if_pos h2, handleSave_headers]; exact ⟨_, rfl⟩
    rw [if_neg h2]
    by_cases h3 : path = epPath .punchOut
    · rw [if_pos h3, handleSave_headers]; exact ⟨_, rfl⟩
    rw [if_neg h3]
    by_cases h4 : path = epPath .currentlyOnline
    · rw [if_pos h4, handleSave_headers]; exact ⟨_, rfl⟩
    rw [if_neg h4]
    exact ⟨[], rfl⟩

/-! ### Claim C2: malformed JSON -/

/-- C2: posting a body that is not valid JSON to any of the four save
endpoints yields HTTP 500 with a JSON body whose status is `"error"` and
whose message is the non-empty stringified exception; the filesystem —
including the previously persisted target file and backups — is left
completely unchanged, and the handler returns normally (the exception is
caught per-request). -/
theorem c2_malformed_json (ep : SaveEndpoint) (e : JsonDecodeError)
    (rmOk : String → Bool) (now : Nat) (fs : Fs) :
    (handlePost (epPath ep) (.error e) rmOk now fs).1.statusCode = 500
    ∧ (handlePost (epPath ep) (.error e) rmOk now fs).1.body
        = some ⟨"error", strOfDecodeError e, none⟩
    ∧ strOfDecodeError e ≠ ""
    ∧ (handlePost (epPath ep) (.error e) rmOk now fs).2 = fs := by
  rw [handlePost_epPath, handleSave_error]
  exact ⟨rfl, rfl, strOfDecodeError_ne_empty e, rfl⟩

/-! ### Claim C9: unmapped POST paths -/

/-- C9: a POST to any path other than the four mapped save paths is answered
with HTTP 404, no JSON body written, only the `end_headers` CORS headers,
and no filesystem change. -/
theorem c9_unmapped_post_404 (path : String)
    (parsed : Except JsonDecodeError JsonValue) (rmOk : String → Bool)
    (now : Nat) (fs : Fs)
    (h1 : path ≠ epPath .records) (h2 : path ≠ epPath .punchIn)
    (h3 : path ≠ epPath .punchOut) (h4 : path ≠ epPath .currentlyOnline) :
    (handlePost path parsed rmOk now fs).1.statusCode = 404
    ∧ (handlePost path parsed rmOk now fs).1.body = none
    ∧ (handlePost path parsed rmOk now fs).2 = fs := by
  unfold handlePost
  rw [if_neg h1, if_neg h2, if_neg h3, if_neg h4]
  exact ⟨rfl, rfl, rfl⟩

/-- C9 witness: a concrete unmapped path. -/
theorem c9_unmapped_post_404_witness :
    (handlePost "/save-nothing" (.ok (.arr [])) (fun _ => true) 0 []).1.statusCode
        = 404
    ∧ (handlePost "/save-nothing" (.ok (.arr [])) (fun _ => true) 0 []).1.body
        = none
    ∧ (handlePost "/save-nothing" (.ok (.arr [])) (fun _ => true) 0 []).2 = [] :=
  c9_unmapped_post_404 "/save-nothing" (.ok (.arr [])) (fun _ => true) 0 []
    (by decide) (by decide) (by decide) (by decide)

/-! ### Claim C8: CORS headers on every response -/

/-- C8: every response, for every method (GET, POST on mapped and unmapped
paths, OPTIONS) and every request, carries all three CORS headers
`Access-Control-Allow-Origin: *`,
`Access-Control-Allow-Methods: GET, POST, OPTIONS` and
`Access-Control-Allow-Headers: Content-Type`, because every response is
flushed through the overridden `end_headers`. -/
theorem c8_cors_on_every_response (m : Method) (path : String)
    (parsed : Except JsonDecodeError JsonValue) (rmOk : String → Bool)
    (now : Nat) (fs : Fs) :
    ("Access-Control-Allow-Origin", "*")
        ∈ (handleRequest m path parsed rmOk now fs).1.headers
    ∧ ("Access-Control-Allow-Methods", "GET, POST, OPTIONS")
        ∈ (handleRequest m path parsed rmOk now fs).1.headers
    ∧ ("Access-Control-Allow-Headers", "Content-Type")
        ∈ (handleRequest m path parsed rmOk now fs).1.headers := by
  obtain ⟨ex, hex⟩ := handleRequest_headers m path parsed rmOk now fs
  rw [hex]
  unfold endHeaders corsHeaders
  refine ⟨?_, ?_, ?_⟩ <;> simp

/-! ### Claim C1: /save-records round trip -/

/-- C1: for every JSON body `B` successfully posted to `/save-records`
(success means `len(B)` is defined, so the handler answers 200),
`Record/Local.json` afterwards holds exactly `B`; and when `B` is an array
the response message reports `len(B)` as the saved count. -/
theorem c1_save_records_roundtrip (B : JsonValue) (n : Nat)
    (rmOk : String → Bool) (now : Nat) (fs : Fs) (h : pyLen B = some n) :
    (handlePost "/save-records" (.ok B) rmOk now fs).1.statusCode = 200
    ∧ readFile (handlePost "/save-records" (.ok B) rmOk now fs).2
        "Record/Local.json" = some ⟨"Record/Local.json", B, now⟩
    ∧ (∀ xs : List JsonValue, B = .arr xs →
        (handlePost "/save-records" (.ok B) rmOk now fs).1.body
          = some ⟨"success", "Saved " ++ toString xs.length ++ " records",
              some (fmtTs now)⟩) := by
  rw [← show epPath SaveEndpoint.records = "/save-records" from rfl,
    handlePost_epPath, handleSave_ok_some SaveEndpoint.records B n rmOk now fs h]
  refine ⟨rfl, ?_, ?_⟩
  · rw [readFile_cleanup_not_match (epPat SaveEndpoint.records) rmOk _ 2
      "Record/Local.json" (by decide)]
    rw [readFile_writeFile_ne _ _ _ _ _
      (show ("Record/Local.json" : String)
          ≠ backupName SaveEndpoint.records (fmtTs now) from
        targetPath_ne_backupName SaveEndpoint.records (fmtTs now))]
    exact readFile_writeFile_self fs (targetPath SaveEndpoint.records) B now
  · intro xs hB
    subst hB
    have hn : xs.length = n := by simpa [pyLen] using h
    subst hn
    rfl

/-- C1 witness: posting a concrete 2-element array to `/save-records`. -/
theorem c1_save_records_roundtrip_witness :
    (handlePost "/save-records" (.ok (.arr [.num 1, .num 2]))
      (fun _ => true) 5 []).1.statusCode = 200
    ∧ readFile (handlePost "/save-records" (.ok (.arr [.num 1, .num 2]))
        (fun _ => true) 5 []).2 "Record/Local.json"
      = some ⟨"Record/Local.json", .arr [.num 1, .num 2], 5⟩
    ∧ (handlePost "/save-records" (.ok (.arr [.num 1, .num 2]))
        (fun _ => true) 5 []).1.body
      = some ⟨"success", "Saved 2 records", some (fmtTs 5)⟩ :=
  have h := c1_save_records_roundtrip (.arr [.num 1, .num 2]) 2
    (fun _ => true) 5 [] rfl
  ⟨h.1, h.2.1, h.2.2 [.num 1, .num 2] rfl⟩

/-! ### Claim C3: success envelope format -/

/-- C3 counterexample: a successful save of a 1-element array to
`/save-records` reports the message `"Saved 1 records"`, not the claimed
format `"<count> records saved"` (which for this request would be
`"1 records saved"`). -/
theorem c3_counterexample :
    (handlePost "/save-records" (.ok (.arr [.null]))
      (fun _ => true) 0 []).1.statusCode = 200
    ∧ (handlePost "/save-records" (.ok (.arr [.null]))
        (fun _ => true) 0 []).1.body
      = some ⟨"success", "Saved 1 records", some "19700101_000000"⟩
    ∧ ("Saved 1 records" : String) ≠ "1 records saved" :=
  ⟨rfl, rfl, by decide⟩

/-- C3 as amended: a successful save answers HTTP 200 with JSON body
`{status: "success", message: "Saved <count>[ <kind>] records",
timestamp: t}` where `t` is exactly the timestamp string used in the backup
filename written by that request (shown here: that backup file exists with
that name). -/
theorem c3_amended_success_envelope (ep : SaveEndpoint) (B : JsonValue)
    (n : Nat) (rmOk : String → Bool) (now : Nat) (fs : Fs)
    (h : pyLen B = some n) (h0 : glob (epPat ep) fs = []) :
    (handleSave ep (.ok B) rmOk now fs).1.statusCode = 200
    ∧ (handleSave ep (.ok B) rmOk now fs).1.body
        = some ⟨"success", "Saved " ++ toString n ++ msgSuffix ep,
            some (fmtTs now)⟩
    ∧ readFile (handleSave ep (.ok B) rmOk now fs).2
        (backupName ep (fmtTs now))
      = some ⟨backupName ep (fmtTs now), B, now⟩ := by
  rw [handleSave_ok_some ep B n rmOk now fs h]
  refine ⟨rfl, rfl, ?_⟩
  have hglob1 : glob (epPat ep) (writeFile fs (targetPath ep) B now) = [] := by
    rw [glob_writeFile_not_match _ _ _ _ _ (matchesPat_targetPath ep)]
    exact h0
  have hglob2 : glob (epPat ep)
      (writeFile (writeFile fs (targetPath ep) B now)
        (backupName ep (fmtTs now)) B now)
      = [⟨backupName ep (fmtTs now), B, now⟩] :=
    glob_writeFile_new _ _ _ _ _ (matchesPat_backupName ep _) hglob1
  rw [cleanup_nop _ _ _ _ (by rw [hglob2]; simp)]
  exact readFile_writeFile_self _ _ _ _

/-- C3 witness: the amended envelope on a concrete punch-in save. -/
theorem c3_amended_success_envelope_witness :
    (handleSave SaveEndpoint.punchIn (.ok (.arr [])) (fun _ => true)
      0 []).1.statusCode = 200
    ∧ (handleSave SaveEndpoint.punchIn (.ok (.arr [])) (fun _ => true)
        0 []).1.body
      = some ⟨"success", "Saved " ++ toString 0 ++ msgSuffix SaveEndpoint.punchIn,
          some (fmtTs 0)⟩
    ∧ readFile (handleSave SaveEndpoint.punchIn (.ok (.arr []))
        (fun _ => true) 0 []).2 (backupName SaveEndpoint.punchIn (fmtTs 0))
      = some ⟨backupName SaveEndpoint.punchIn (fmtTs 0), .arr [], 0⟩ :=
  c3_amended_success_envelope SaveEndpoint.punchIn (.arr []) 0
    (fun _ => true) 0 [] rfl rfl

/-! ### Claim C5: 500 after the files were already overwritten -/

/-- C5: for a valid JSON body whose top-level value has no `len()` (number,
boolean or null), the handler answers HTTP 500 with a `len()` `TypeError`
message — yet by then the target file and the timestamped backup have
already been overwritten with the new value, so a 500 response does not
imply the persisted files are unchanged.  (Stated for a directory with no
prior backups for the endpoint, so the fresh backup survives the sweep.) -/
theorem c5_error_after_write (ep : SaveEndpoint) (B : JsonValue)
    (rmOk : String → Bool) (now : Nat) (fs : Fs)
    (hl : pyLen B = none) (h0 : glob (epPat ep) fs = []) :
    (handleSave ep (.ok B) rmOk now fs).1.statusCode = 500
    ∧ (handleSave ep (.ok B) rmOk now fs).1.body
        = some ⟨"error", lenErrMsg B, none⟩
    ∧ lenErrMsg B ≠ ""
    ∧ readFile (handleSave ep (.ok B) rmOk now fs).2 (targetPath ep)
        = some ⟨targetPath ep, B, now⟩
    ∧ readFile (handleSave ep (.ok B) rmOk now fs).2
        (backupName ep (fmtTs now))
      = some ⟨backupName ep (fmtTs now), B, now⟩ := by
  rw [handleSave_ok_none ep B rmOk now fs hl]
  have hglob1 : glob (epPat ep) (writeFile fs (targetPath ep) B now) = [] := by
    rw [glob_writeFile_not_match _ _ _ _ _ (matchesPat_targetPath ep)]
    exact h0
  have hglob2 : glob (epPat ep)
      (writeFile (writeFile fs (targetPath ep) B now)
        (backupName ep (fmtTs now)) B now)
      = [⟨backupName ep (fmtTs now), B, now⟩] :=
    glob_writeFile_new _ _ _ _ _ (matchesPat_backupName ep _) hglob1
  refine ⟨rfl, rfl, lenErrMsg_ne_empty B, ?_, ?_⟩
  · rw [cleanup_nop _ _ _ _ (by rw [hglob2]; simp)]
    rw [readFile_writeFile_ne _ _ _ _ _ (targetPath_ne_backupName ep (fmtTs now))]
    exact readFile_writeFile_self fs (targetPath ep) B now
  · rw [cleanup_nop _ _ _ _ (by rw [hglob2]; simp)]
    exact readFile_writeFile_self _ _ _ _

/-- C5 witness: posting `null` to `/save-records` over an empty directory. -/
theorem c5_error_after_write_witness :
    (handleSave SaveEndpoint.records (.ok .null) (fun _ => true)
      0 []).1.statusCode = 500
    ∧ (handleSave SaveEndpoint.records (.ok .null) (fun _ => true)
        0 []).1.body = some ⟨"error", lenErrMsg .null, none⟩
    ∧ readFile (handleSave SaveEndpoint.records (.ok .null) (fun _ => true)
        0 []).2 (targetPath SaveEndpoint.records)
      = some ⟨targetPath SaveEndpoint.records, .null, 0⟩
    ∧ readFile (handleSave SaveEndpoint.records (.ok .null) (fun _ => true)
        0 []).2 (backupName SaveEndpoint.records (fmtTs 0))
      = some ⟨backupName SaveEndpoint.records (fmtTs 0), .null, 0⟩ :=
  have h := c5_error_after_write SaveEndpoint.records .null
    (fun _ => true) 0 [] rfl rfl
  ⟨h.1, h.2.1, h.2.2.2.1, h.2.2.2.2⟩

/-! ### Claim C10: same-second saves share one backup file -/

/-- C10: the backup filename is a pure function of the endpoint's fixed
name part and the wall-clock time truncated to one second; two successful
saves to the same endpoint within the same second (same `now`) both write
`backupName ep (fmtTs now)`, so after the second save exactly one backup
file exists for the endpoint, holding the second body. -/
theorem c10_same_second_single_backup (ep : SaveEndpoint) (B1 B2 : JsonValue)
    (n1 n2 : Nat) (rmOk : String → Bool) (now : Nat) (fs : Fs)
    (h1 : pyLen B1 = some n1) (h2 : pyLen B2 = some n2)
    (h0 : glob (epPat ep) fs = []) :
    glob (epPat ep) (handleSave ep (.ok B1) rmOk now fs).2
      = [⟨backupName ep (fmtTs now), B1, now⟩]
    ∧ glob (epPat ep)
        (handleSave ep (.ok B2) rmOk now
          (handleSave ep (.ok B1) rmOk now fs).2).2
      = [⟨backupName ep (fmtTs now), B2, now⟩] := by
  rw [handleSave_ok_some ep B1 n1 rmOk now fs h1]
  have hglob1 : glob (epPat ep) (writeFile fs (targetPath ep) B1 now) = [] := by
    rw [glob_writeFile_not_match _ _ _ _ _ (matchesPat_targetPath ep)]
    exact h0
  have hglob2 : glob (epPat ep)
      (writeFile (writeFile fs (targetPath ep) B1 now)
        (backupName ep (fmtTs now)) B1 now)
      = [⟨backupName ep (fmtTs now), B1, now⟩] :=
    glob_writeFile_new _ _ _ _ _ (matchesPat_backupName ep _) hglob1
  rw [cleanup_nop _ _ _ _ (by rw [hglob2]; simp)]
  refine ⟨hglob2, ?_⟩
  rw [handleSave_ok_some ep B2 n2 rmOk now _ h2]
  have hg3 : glob (epPat ep)
      (writeFile (writeFile (writeFile fs (targetPath ep) B1 now)
        (backupName ep (fmtTs now)) B1 now) (targetPath ep) B2 now)
      = [⟨backupName ep (fmtTs now), B1, now⟩] := by
    rw [glob_writeFile_not_match _ _ _ _ _ (matchesPat_targetPath ep)]
    exact hglob2
  have hg4 : glob (epPat ep)
      (writeFile (writeFile (writeFile (writeFile fs (targetPath ep) B1 now)
        (backupName ep (fmtTs now)) B1 now) (targetPath ep) B2 now)
        (backupName ep (fmtTs now)) B2 now)
      = [⟨backupName ep (fmtTs now), B2, now⟩] :=
    glob_writeFile_update _ _ _ _ _ ⟨backupName ep (fmtTs now), B1, now⟩
      hg3 rfl
  rw [cleanup_nop _ _ _ _ (by rw [hg4]; simp)]
  exact hg4

/-- C10 witness: two same-second saves of different arrays to
`/save-records` over an empty directory. -/
theorem c10_same_second_single_backup_witness :
    glob (epPat SaveEndpoint.records)
      (handleSave SaveEndpoint.records (.ok (.arr [])) (fun _ => true) 7 []).2
      = [⟨backupName SaveEndpoint.records (fmtTs 7), .arr [], 7⟩]
    ∧ glob (epPat SaveEndpoint.records)
        (handleSave SaveEndpoint.records (.ok (.arr [.null])) (fun _ => true) 7
          (handleSave SaveEndpoint.records (.ok (.arr []))
            (fun _ => true) 7 []).2).2
      = [⟨backupName SaveEndpoint.records (fmtTs 7), .arr [.null], 7⟩] :=
  c10_same_second_single_backup SaveEndpoint.records (.arr []) (.arr [.null])
    0 1 (fun _ => true) 7 [] rfl rfl rfl

/-! ### Claim C7: port-conflict handling -/

/-- The port scan returns the first port in its window that binds. -/
theorem scanPorts_spec (avail : Nat → Bool) (s n p : Nat)
    (h : scanPorts avail s n = some p) :
    avail p = true ∧ s ≤ p ∧ p < s + n
      ∧ ∀ q, s ≤ q → q < p → avail q = false := by
  induction n generalizing s with
  | zero => simp [scanPorts] at h
  | succ k ih =>
    unfold scanPorts at h
    by_cases hs : avail s = true
    · rw [if_pos hs] at h
      have hp : p = s := (Option.some.inj h).symm
      subst hp
      exact ⟨hs, le_refl p, by omega, fun q hq1 hq2 => by omega⟩
    · rw [if_neg hs] at h
      obtain ⟨ha, h1, h2, h3⟩ := ih (s + 1) h
      refine ⟨ha, by omega, by omega, ?_⟩
      intro q hq1 hq2
      by_cases hqs : q = s
      · subst hqs
        rwa [Bool.not_eq_true] at hs
      · exact h3 q (by omega) hq2

/-- C7: when the requested port is already bound, the plain-HTTP launcher
scans the next 10 ports linearly and serves on the first available one (any
earlier port in the window is unavailable); if the whole window is
unavailable it fails; the HTTPS variant performs no retry and fails
outright on the bind conflict. -/
theorem c7_port_retry (avail : Nat → Bool) (certOk : Bool) (port : Nat)
    (hbusy : avail port = false) :
    (∀ p, find_available_port avail (port + 1) = some p →
      (start_server avail 2 port = .served p
       ∧ avail p = true ∧ port + 1 ≤ p ∧ p ≤ port + 10
       ∧ ∀ q, port + 1 ≤ q → q < p → avail q = false))
    ∧ (find_available_port avail (port + 1) = none →
        start_server avail 2 port = .failed)
    ∧ start_enhanced_server avail certOk port = .failed := by
  refine ⟨?_, ?_, ?_⟩
  · intro p hp
    obtain ⟨ha, h1, h2, h3⟩ := scanPorts_spec avail (port + 1) 10 p hp
    refine ⟨?_, ha, h1, by omega, h3⟩
    show start_server avail 2 port = ServeOutcome.served p
    unfold start_server
    rw [if_neg (by simp [hbusy]), hp]
    unfold start_server
    rw [if_pos (by simp [ha])]
  · intro hnone
    show start_server avail 2 port = ServeOutcome.failed
    unfold start_server
    rw [if_neg (by simp [hbusy]), hnone]
  · unfold start_enhanced_server
    rw [if_neg (by simp [hbusy])]

/-- C7 witness: port 8000 busy, ports 8001-8004 busy, 8005 free. -/
theorem c7_port_retry_witness :
    start_server (fun q => q == 8005) 2 8000 = .served 8005
    ∧ start_enhanced_server (fun q => q == 8005) true 8000 = .failed :=
  have h := c7_port_retry (fun q => q == 8005) true 8000 (by decide)
  ⟨(h.1 8005 (by decide)).1, h.2.2⟩
